import Mathlib

/-!
# The request middlewares of package `xhttp`

A shallow embedding of `internal/app/xhttp/middleware.go`: the four echo
middlewares `contextMiddleware`, `loggerMiddleware`, `cleanupMiddleware` and
`errorMiddleware`.

A Go handler `func(c echo.Context) error` has side effects and may panic, so it
is embedded as a function from the context and the state of the world to an
outcome (returned error or panic) and the next state of the world.  The world
records, oldest first, every call the code makes on its collaborators (the
response, the loggers, the Resource), which is what the properties count.
-/

namespace Xhttp

/-! ## Errors -/

/-- The value behind a `*echo.HTTPError`: the HTTP status and the message. -/
structure HTTPError where
  Code : Int
  Message : String
  deriving DecidableEq, Repr

/-- The codes of package `xerror`.  Their declaration is not part of the
excerpt; the middleware only compares them, so a code is a number. -/
abbrev ErrorCode := Nat

/-- A non-nil Go `error`, by dynamic type: a `*echo.HTTPError`, or a value of
any other error type, which the middlewares only pass to package `xerror`
and to the loggers.  Such a value is told apart by an operation label, a code
and a message; what package `xerror` reads of it is left to `Pkgs`. -/
inductive GoError where
  | echoHTTP (he : HTTPError)
  | other (op : String) (code : ErrorCode) (message : String)
  deriving DecidableEq, Repr

/-- The type assertion `err.(*echo.HTTPError)`: `some` when `ok` is true. -/
def GoError.asHTTPError : GoError → Option HTTPError
  | .echoHTTP he => some he
  | .other _ _ _ => none

/-- The constant `http.StatusBadRequest`. -/
def StatusBadRequest : Int := 400

/-- The constant `http.StatusBadGateway`. -/
def StatusBadGateway : Int := 502

/-- The constant `http.StatusInternalServerError`. -/
def StatusInternalServerError : Int := 500

/-- The call `echo.NewHTTPError(code, message)` with one message argument. -/
def NewHTTPError (code : Int) (message : String) : GoError :=
  .echoHTTP { Code := code, Message := message }

/-! ## The Resource, the context and the world -/

/-- A `resource.Resource`: the arguments of the request, and the answer its
`Close` gives (nil or an error), which the file system decides. -/
structure Resource where
  args : List (String × String)
  closeResult : Option GoError
  deriving DecidableEq, Repr

/-- Modelled from the spec: `hasArg(key) -> bool`, the query whether an
argument was supplied under `key` (the method `Resource.HasArg` is not part of
the excerpt). -/
def Resource.HasArg (r : Resource) (key : String) : Bool :=
  r.args.any (fun kv => kv.1 == key)

/-- A call made on a collaborator. -/
inductive Event where
  /-- The call `ctx.WithResource(trace)`. -/
  | WithResource (trace : String)
  /-- The call `ctx.Error(err)`, which records the error on the response. -/
  | Error (err : GoError)
  /-- The call `ctx.LogRequestResult(err, isDebug)`. -/
  | LogRequestResult (err : Option GoError) (isDebug : Bool)
  /-- The call `ctx.XLogger().ErrorOp(op, err)`. -/
  | ErrorOp (op : String) (err : GoError)
  /-- The call `r.Close()`. -/
  | Close (r : Resource)
  deriving DecidableEq, Repr

/-- The state one request runs in. -/
structure World where
  /-- The calls made so far, oldest first. -/
  log : List Event
  /-- The Resource the context of the request holds, if any. -/
  resource : Option Resource
  /-- The identifier `xrand.Get()` yields for the request. -/
  trace : String
  /-- What acquiring the Resource of the request gives: an error or the
  Resource. -/
  acquire : GoError ⊕ Resource
  deriving DecidableEq, Repr

/-- The logger `xlog.New(level, trace)` builds. -/
structure Logger where
  level : Nat
  trace : String
  deriving DecidableEq, Repr

/-- The part of `conf.Config` the middleware reads: the log level. -/
structure Config where
  LogLevel : Nat
  deriving DecidableEq, Repr

/-- A `pm2.Process`, by name. -/
abbrev Process := String

/-- The custom `*context.Context`: the echo context it extends (here its
path), the logger, the configuration and the processes. -/
structure Context where
  path : String
  logger : Logger
  config : Config
  processes : List Process
  deriving DecidableEq, Repr

/-- An `echo.Context` value: echo's own context, or the custom context. -/
inductive EchoContext where
  | plain (path : String)
  | custom (ctx : Context)
  deriving DecidableEq, Repr

/-- The method `Path()` of an `echo.Context`. -/
def EchoContext.Path : EchoContext → String
  | .plain p => p
  | .custom ctx => ctx.path

/-- How a Go call ends: it returns its `error` (nil is `none`), or it
panics. -/
inductive Outcome where
  | ret (err : Option GoError)
  | panic (v : String)
  deriving DecidableEq, Repr

/-- An `echo.HandlerFunc`. -/
abbrev HandlerFunc := EchoContext → World → Outcome × World

/-- What the middleware uses of the packages outside the excerpt: the
constants `pingEndpoint` and `resource.WebhookURLArgKey`, package `xerror`
(`New`, `Op`, `Code`, `Message` and the two codes the middleware names), and
the error `LogRequestResult` returns. -/
structure Pkgs where
  pingEndpoint : String
  WebhookURLArgKey : String
  New : String → GoError → GoError
  Op : GoError → String
  Code : GoError → ErrorCode
  Message : GoError → String
  InvalidCode : ErrorCode
  TimeoutCode : ErrorCode
  logResult : Option GoError → Bool → Option GoError

/-- Modelled from the spec: a classified error is a tuple of (operation label,
error kind, message), so it carries one operation label: the label
`xerror.Op` reads off the error `xerror.New(op, err)` builds is `op`.  The
functions `New` and `Op` of package `xerror` are not part of the excerpt. -/
def Pkgs.OpOfNew (P : Pkgs) : Prop :=
  ∀ (op : String) (err : GoError), P.Op (P.New op err) = op

/-! ## The collaborators -/

/-- Appends a call to the log of the world. -/
def World.record (w : World) (e : Event) : World :=
  { w with log := w.log ++ [e] }

/-- The call `xrand.Get()`. -/
def xrandGet (w : World) : String × World :=
  (w.trace, w)

/-- The call `xlog.New(level, trace)`. -/
def xlogNew (level : Nat) (trace : String) : Logger :=
  { level := level, trace := trace }

/-- The call `context.New(c, logger, config, processes...)`. -/
def contextNew (c : EchoContext) (logger : Logger) (config : Config)
    (processes : List Process) : Context :=
  { path := c.Path, logger := logger, config := config, processes := processes }

/-- The call `context.MustCastFromEchoContext(c)`, which is not part of the
excerpt: the custom context when `c` is one, `none` (a panic) otherwise. -/
def MustCastFromEchoContext : EchoContext → Option Context
  | .custom ctx => some ctx
  | .plain _ => none

/-- Modelled from the spec: `withResource(trace) -> Result<(), Error>`, the
fallible step that populates the Resource of the context (the method
`Context.WithResource` is not part of the excerpt). -/
def WithResource (trace : String) (w : World) : Option GoError × World :=
  match w.acquire with
  | .inl err => (some err, w.record (.WithResource trace))
  | .inr r => (none, { w.record (.WithResource trace) with resource := some r })

/-- Modelled from the spec: `hasResource() -> bool` (the method
`Context.HasResource` is not part of the excerpt). -/
def HasResource (w : World) : Bool :=
  w.resource.isSome

/-- Modelled from the spec: `mustResource() -> Resource`, fatal (`none`) when
called without a Resource (the method `Context.MustResource` is not part of
the excerpt). -/
def MustResource (w : World) : Option Resource :=
  w.resource

/-- Modelled from the spec: `close() -> Result<(), Error>` (the method
`Resource.Close` is not part of the excerpt). -/
def Resource.Close (r : Resource) (w : World) : Option GoError × World :=
  (r.closeResult, w.record (.Close r))

/-- The call `ctx.Error(err)`. -/
def ctxError (err : GoError) (w : World) : World :=
  w.record (.Error err)

/-- The call `ctx.XLogger().ErrorOp(op, err)`. -/
def ErrorOp (op : String) (err : GoError) (w : World) : World :=
  w.record (.ErrorOp op err)

/-- The call `ctx.LogRequestResult(err, isDebug)`. -/
def LogRequestResult (P : Pkgs) (err : Option GoError) (isDebug : Bool)
    (w : World) : Outcome × World :=
  (.ret (P.logResult err isDebug), w.record (.LogRequestResult err isDebug))

/-! ## The middlewares -/

/-- The function `contextMiddleware` of middleware.go. -/
def contextMiddleware (P : Pkgs) (config : Config) (processes : List Process)
    (next : HandlerFunc) : HandlerFunc :=
  fun c w =>
    let (trace, w) := xrandGet w
    let logger := xlogNew config.LogLevel trace
    let ctx := contextNew c logger config processes
    if ctx.path = P.pingEndpoint then
      next (.custom ctx) w
    else
      match WithResource trace w with
      | (some err, w) =>
        let w := ctxError err w
        LogRequestResult P (some err) false w
      | (none, w) => next (.custom ctx) w

/-- The function `loggerMiddleware` of middleware.go. -/
def loggerMiddleware (P : Pkgs) (next : HandlerFunc) : HandlerFunc :=
  fun c w =>
    match MustCastFromEchoContext c with
    | none => (.panic "MustCastFromEchoContext", w)
    | some ctx =>
      match next (.custom ctx) w with
      | (.panic v, w) => (.panic v, w)
      | (.ret err, w) =>
        let isDebug := decide (ctx.path = P.pingEndpoint)
        LogRequestResult P err isDebug w

/-- The function `cleanupMiddleware` of middleware.go. -/
def cleanupMiddleware (P : Pkgs) (next : HandlerFunc) : HandlerFunc :=
  fun c w =>
    let op : String := "xhttp.cleanupMiddleware"
    match next c w with
    | (.panic v, w) => (.panic v, w)
    | (.ret err, w) =>
      match MustCastFromEchoContext c with
      | none => (.panic "MustCastFromEchoContext", w)
      | some _ =>
        if !HasResource w then
          (.ret err, w)
        else
          match MustResource w with
          | none => (.panic "MustResource", w)
          | some r =>
            if r.HasArg P.WebhookURLArgKey then
              (.ret err, w)
            else
              match r.Close w with
              | (some resourceErr, w) =>
                let xerr := P.New op resourceErr
                (.ret err, ErrorOp (P.Op xerr) xerr w)
              | (none, w) => (.ret err, w)

/-- The function `errorMiddleware` of middleware.go. -/
def errorMiddleware (P : Pkgs) (next : HandlerFunc) : HandlerFunc :=
  fun c w =>
    match MustCastFromEchoContext c with
    | none => (.panic "MustCastFromEchoContext", w)
    | some ctx =>
      match next (.custom ctx) w with
      | (.panic v, w) => (.panic v, w)
      | (.ret none, w) => (.ret none, w)
      | (.ret (some err), w) =>
        match err.asHTTPError with
        | some echoHTTPErr => (.ret (some (.echoHTTP echoHTTPErr)), w)
        | none =>
          let errOp := P.Op err
          let w := ErrorOp errOp err w
          let errCode := P.Code err
          let errMessage := P.Message err
          let httpErr :=
            if errCode = P.InvalidCode then
              NewHTTPError StatusBadRequest errMessage
            else if errCode = P.TimeoutCode then
              NewHTTPError StatusBadGateway errMessage
            else
              NewHTTPError StatusInternalServerError errMessage
          let w := ctxError httpErr w
          (.ret (some httpErr), w)

/-! ## Counting the calls -/

/-- The number of `Close` calls among the given calls. -/
def closeCalls : List Event → Nat
  | [] => 0
  | .Close _ :: es => closeCalls es + 1
  | _ :: es => closeCalls es

/-- The number of `WithResource` calls among the given calls. -/
def withResourceCalls : List Event → Nat
  | [] => 0
  | .WithResource _ :: es => withResourceCalls es + 1
  | _ :: es => withResourceCalls es

/-- The number of `ErrorOp` calls among the given calls. -/
def errorOpCalls : List Event → Nat
  | [] => 0
  | .ErrorOp _ _ :: es => errorOpCalls es + 1
  | _ :: es => errorOpCalls es

/-! ## Concrete inputs -/

/-- An instance of the outside packages: the path `/ping`, the key
`webhookURL`, the codes 1 (invalid) and 2 (timeout), an `xerror` whose `New`
puts the operation label on the error and whose `Op`, `Code` and `Message` read
the label, the code and the message off it, and a `LogRequestResult` that
returns the error it is given. -/
def exPkgs : Pkgs where
  pingEndpoint := "/ping"
  WebhookURLArgKey := "webhookURL"
  New := fun op e => match e with
    | .other _ code message => .other op code message
    | .echoHTTP he => .other op 0 he.Message
  Op := fun e => match e with
    | .other op _ _ => op
    | .echoHTTP _ => ""
  Code := fun e => match e with
    | .other _ code _ => code
    | .echoHTTP _ => 0
  Message := fun e => match e with
    | .other _ _ message => message
    | .echoHTTP he => he.Message
  InvalidCode := 1
  TimeoutCode := 2
  logResult := fun err _ => err

/-- An error of the invalid code. -/
def exInvalidErr : GoError := .other "context.WithResource" 1 "invalid form data"

/-- An error of the timeout code. -/
def exTimeoutErr : GoError := .other "chrome.Print" 2 "deadline exceeded"

/-- An error of another code. -/
def exInternalErr : GoError := .other "xhttp.convert" 3 "conversion failed"

/-- The error a failing `Close` answers. -/
def exCloseErr : GoError := .other "resource.Close" 3 "directory not removed"

/-- A configuration. -/
def exConfig : Config := { LogLevel := 0 }

/-- A custom context for the path `/convert/html`. -/
def exCtx : Context :=
  { path := "/convert/html", logger := xlogNew 0 "t1", config := exConfig,
    processes := [] }

/-- A Resource without the webhook URL argument, whose `Close` succeeds. -/
def exResource : Resource :=
  { args := [("resultFilename", "out.pdf")], closeResult := none }

/-- A Resource without the webhook URL argument, whose `Close` fails. -/
def exResourceBad : Resource :=
  { args := [], closeResult := some exCloseErr }

/-- A Resource with the webhook URL argument. -/
def exResourceHook : Resource :=
  { args := [("webhookURL", "http://host/hook")], closeResult := none }

/-- A world before the context middleware, whose acquisition fails with an
error of the invalid code. -/
def exWorldFail : World :=
  { log := [], resource := none, trace := "t1", acquire := .inl exInvalidErr }

/-- A world whose context holds the given Resource. -/
def exWorldWith (r : Resource) : World :=
  { log := [.WithResource "t1"], resource := some r, trace := "t1",
    acquire := .inr r }

/-- A handler that returns the given error and touches nothing. -/
def exReturn (err : Option GoError) : HandlerFunc :=
  fun _ w => (.ret err, w)

/-- A handler that panics. -/
def exPanic : HandlerFunc :=
  fun _ w => (.panic "boom", w)

/-! ## Shared lemmas -/

theorem exPkgs_opOfNew : exPkgs.OpOfNew := by
  intro op err
  cases err <;> rfl

theorem asHTTPError_eq_some {err : GoError} {he : HTTPError}
    (h : err.asHTTPError = some he) : GoError.echoHTTP he = err := by
  cases err with
  | echoHTTP he2 =>
    simp only [GoError.asHTTPError, Option.some.injEq] at h
    rw [h]
  | other op code message => simp [GoError.asHTTPError] at h

theorem errorMiddleware_on_other (P : Pkgs) (next : HandlerFunc) (ctx : Context)
    (w w1 : World) (err : GoError)
    (hnext : next (.custom ctx) w = (.ret (some err), w1))
    (hnot : err.asHTTPError = none) :
    errorMiddleware P next (.custom ctx) w =
      (.ret (some (NewHTTPError
          (if P.Code err = P.InvalidCode then StatusBadRequest
           else if P.Code err = P.TimeoutCode then StatusBadGateway
           else StatusInternalServerError) (P.Message err))),
       { w1 with log := w1.log ++ [.ErrorOp (P.Op err) err,
          .Error (NewHTTPError
            (if P.Code err = P.InvalidCode then StatusBadRequest
             else if P.Code err = P.TimeoutCode then StatusBadGateway
             else StatusInternalServerError) (P.Message err))] }) := by
  simp only [errorMiddleware, MustCastFromEchoContext, hnext, hnot, ErrorOp, ctxError,
    World.record, List.append_assoc, List.singleton_append]
  split_ifs <;> rfl

/-! ## errorMiddleware -/

/-- C1: when the wrapped handler returns a non-nil error `err` that is not a
`*echo.HTTPError`, errorMiddleware returns an HTTP error whose status is 400
when `xerror.Code(err)` is `InvalidCode`, 502 when it is `TimeoutCode` and 500
for every other code, whose message is `xerror.Message(err)`, and that same
HTTP error is the one passed to `ctx.Error`.  The two codes are distinct
constants (Go rejects a switch with the same constant in two cases). -/
theorem errorMiddleware_status_by_code (P : Pkgs) (next : HandlerFunc) (ctx : Context)
    (w w1 : World) (err : GoError)
    (hnext : next (.custom ctx) w = (.ret (some err), w1))
    (hnot : err.asHTTPError = none)
    (hcodes : P.InvalidCode ≠ P.TimeoutCode) :
    ∃ he : HTTPError,
      (errorMiddleware P next (.custom ctx) w).1 = .ret (some (.echoHTTP he)) ∧
      (errorMiddleware P next (.custom ctx) w).2.log =
        w1.log ++ [.ErrorOp (P.Op err) err, .Error (.echoHTTP he)] ∧
      he.Message = P.Message err ∧
      (P.Code err = P.InvalidCode → he.Code = 400) ∧
      (P.Code err = P.TimeoutCode → he.Code = 502) ∧
      (P.Code err ≠ P.InvalidCode → P.Code err ≠ P.TimeoutCode → he.Code = 500) := by
  rw [errorMiddleware_on_other P next ctx w w1 err hnext hnot]
  refine ⟨_, rfl, rfl, rfl, ?_, ?_, ?_⟩
  · intro h
    simp [h, StatusBadRequest]
  · intro h
    have h2 : P.TimeoutCode ≠ P.InvalidCode := fun h3 => hcodes h3.symm
    simp [h, h2, StatusBadGateway]
  · intro h1 h2
    simp [h1, h2, StatusInternalServerError]

/-- An instance of C1: a handler returning an error of the invalid code. -/
theorem errorMiddleware_status_by_code_witness :
    exReturn (some exInvalidErr) (.custom exCtx) (exWorldWith exResource)
        = (.ret (some exInvalidErr), exWorldWith exResource) ∧
    exInvalidErr.asHTTPError = none ∧
    exPkgs.InvalidCode ≠ exPkgs.TimeoutCode ∧
    ∃ he : HTTPError,
      (errorMiddleware exPkgs (exReturn (some exInvalidErr)) (.custom exCtx)
        (exWorldWith exResource)).1 = .ret (some (.echoHTTP he)) ∧
      (errorMiddleware exPkgs (exReturn (some exInvalidErr)) (.custom exCtx)
        (exWorldWith exResource)).2.log =
        (exWorldWith exResource).log ++
          [.ErrorOp (exPkgs.Op exInvalidErr) exInvalidErr, .Error (.echoHTTP he)] ∧
      he.Message = exPkgs.Message exInvalidErr ∧
      (exPkgs.Code exInvalidErr = exPkgs.InvalidCode → he.Code = 400) ∧
      (exPkgs.Code exInvalidErr = exPkgs.TimeoutCode → he.Code = 502) ∧
      (exPkgs.Code exInvalidErr ≠ exPkgs.InvalidCode →
        exPkgs.Code exInvalidErr ≠ exPkgs.TimeoutCode → he.Code = 500) :=
  ⟨rfl, rfl, by decide,
    errorMiddleware_status_by_code exPkgs (exReturn (some exInvalidErr)) exCtx
      (exWorldWith exResource) (exWorldWith exResource) exInvalidErr rfl rfl (by decide)⟩

/-- C2: when the wrapped handler returns a `*echo.HTTPError`, errorMiddleware
returns that same error and leaves the world as the handler left it (no
`ErrorOp` call, no `ctx.Error` call); when the handler returns nil,
errorMiddleware returns nil and leaves the world as the handler left it. -/
theorem errorMiddleware_passes_through (P : Pkgs) (next : HandlerFunc) (ctx : Context)
    (w w1 : World) (r : Option GoError)
    (hnext : next (.custom ctx) w = (.ret r, w1))
    (hr : r = none ∨ ∃ he : HTTPError, r = some (.echoHTTP he)) :
    errorMiddleware P next (.custom ctx) w = (.ret r, w1) := by
  rcases hr with h | ⟨he, h⟩
  · subst h
    simp [errorMiddleware, MustCastFromEchoContext, hnext]
  · subst h
    simp [errorMiddleware, MustCastFromEchoContext, hnext, GoError.asHTTPError]

/-- An instance of C2: a handler returning the 404 of echo. -/
theorem errorMiddleware_passes_through_witness :
    exReturn (some (.echoHTTP ⟨404, "Not Found"⟩)) (.custom exCtx) (exWorldWith exResource)
        = (.ret (some (.echoHTTP ⟨404, "Not Found"⟩)), exWorldWith exResource) ∧
    errorMiddleware exPkgs (exReturn (some (.echoHTTP ⟨404, "Not Found"⟩))) (.custom exCtx)
        (exWorldWith exResource)
      = (.ret (some (.echoHTTP ⟨404, "Not Found"⟩)), exWorldWith exResource) :=
  ⟨rfl,
    errorMiddleware_passes_through exPkgs (exReturn (some (.echoHTTP ⟨404, "Not Found"⟩)))
      exCtx (exWorldWith exResource) (exWorldWith exResource) _ rfl
      (Or.inr ⟨⟨404, "Not Found"⟩, rfl⟩)⟩

/-- C10: when the wrapped handler returns a non-nil error `err` that is not a
`*echo.HTTPError`, the calls errorMiddleware makes after the handler are,
in this order, one `ErrorOp(xerror.Op(err), err)` and then `ctx.Error` with the
HTTP error it returns: `err` is logged exactly once, before it is converted
and recorded. -/
theorem errorMiddleware_logs_before_converting (P : Pkgs) (next : HandlerFunc)
    (ctx : Context) (w w1 : World) (err : GoError)
    (hnext : next (.custom ctx) w = (.ret (some err), w1))
    (hnot : err.asHTTPError = none) :
    ∃ httpErr : GoError,
      (errorMiddleware P next (.custom ctx) w).1 = .ret (some httpErr) ∧
      (errorMiddleware P next (.custom ctx) w).2.log =
        w1.log ++ [.ErrorOp (P.Op err) err, .Error httpErr] ∧
      errorOpCalls [.ErrorOp (P.Op err) err, .Error httpErr] = 1 := by
  rw [errorMiddleware_on_other P next ctx w w1 err hnext hnot]
  exact ⟨_, rfl, rfl, rfl⟩

/-- An instance of C10: a handler returning an error of the timeout code. -/
theorem errorMiddleware_logs_before_converting_witness :
    exReturn (some exTimeoutErr) (.custom exCtx) (exWorldWith exResource)
        = (.ret (some exTimeoutErr), exWorldWith exResource) ∧
    exTimeoutErr.asHTTPError = none ∧
    ∃ httpErr : GoError,
      (errorMiddleware exPkgs (exReturn (some exTimeoutErr)) (.custom exCtx)
        (exWorldWith exResource)).1 = .ret (some httpErr) ∧
      (errorMiddleware exPkgs (exReturn (some exTimeoutErr)) (.custom exCtx)
        (exWorldWith exResource)).2.log =
        (exWorldWith exResource).log ++
          [.ErrorOp (exPkgs.Op exTimeoutErr) exTimeoutErr, .Error httpErr] ∧
      errorOpCalls [.ErrorOp (exPkgs.Op exTimeoutErr) exTimeoutErr, .Error httpErr] = 1 :=
  ⟨rfl, rfl,
    errorMiddleware_logs_before_converting exPkgs (exReturn (some exTimeoutErr)) exCtx
      (exWorldWith exResource) (exWorldWith exResource) exTimeoutErr rfl rfl⟩

/-! ## cleanupMiddleware -/

theorem cleanupMiddleware_on_panic (P : Pkgs) (next : HandlerFunc) (c : EchoContext)
    (w w1 : World) (v : String) (hnext : next c w = (.panic v, w1)) :
    cleanupMiddleware P next c w = (.panic v, w1) := by
  simp [cleanupMiddleware, hnext]

theorem cleanupMiddleware_on_none (P : Pkgs) (next : HandlerFunc) (ctx : Context)
    (w w1 : World) (e : Option GoError)
    (hnext : next (.custom ctx) w = (.ret e, w1)) (hres : w1.resource = none) :
    cleanupMiddleware P next (.custom ctx) w = (.ret e, w1) := by
  simp [cleanupMiddleware, hnext, MustCastFromEchoContext, HasResource, hres]

theorem cleanupMiddleware_on_webhook (P : Pkgs) (next : HandlerFunc) (ctx : Context)
    (w w1 : World) (e : Option GoError) (r : Resource)
    (hnext : next (.custom ctx) w = (.ret e, w1)) (hres : w1.resource = some r)
    (harg : r.HasArg P.WebhookURLArgKey = true) :
    cleanupMiddleware P next (.custom ctx) w = (.ret e, w1) := by
  simp [cleanupMiddleware, hnext, MustCastFromEchoContext, HasResource, MustResource, hres,
    harg]

theorem cleanupMiddleware_on_close_ok (P : Pkgs) (next : HandlerFunc) (ctx : Context)
    (w w1 : World) (e : Option GoError) (r : Resource)
    (hnext : next (.custom ctx) w = (.ret e, w1)) (hres : w1.resource = some r)
    (harg : r.HasArg P.WebhookURLArgKey = false) (hclose : r.closeResult = none) :
    cleanupMiddleware P next (.custom ctx) w =
      (.ret e, { w1 with log := w1.log ++ [.Close r] }) := by
  simp [cleanupMiddleware, hnext, MustCastFromEchoContext, HasResource, MustResource, hres,
    harg, Resource.Close, hclose, World.record]

theorem cleanupMiddleware_on_close_failure (P : Pkgs) (next : HandlerFunc) (ctx : Context)
    (w w1 : World) (e : Option GoError) (r : Resource) (resourceErr : GoError)
    (hnext : next (.custom ctx) w = (.ret e, w1)) (hres : w1.resource = some r)
    (harg : r.HasArg P.WebhookURLArgKey = false)
    (hclose : r.closeResult = some resourceErr) :
    cleanupMiddleware P next (.custom ctx) w =
      (.ret e, { w1 with log := w1.log ++ [.Close r,
        .ErrorOp (P.Op (P.New "xhttp.cleanupMiddleware" resourceErr))
          (P.New "xhttp.cleanupMiddleware" resourceErr)] }) := by
  simp [cleanupMiddleware, hnext, MustCastFromEchoContext, HasResource, MustResource, hres,
    harg, Resource.Close, hclose, World.record, ErrorOp]

theorem cleanupMiddleware_returns (P : Pkgs) (next : HandlerFunc) (ctx : Context)
    (w w1 : World) (e : Option GoError)
    (hnext : next (.custom ctx) w = (.ret e, w1)) :
    (cleanupMiddleware P next (.custom ctx) w).1 = .ret e := by
  cases hres : w1.resource with
  | none => rw [cleanupMiddleware_on_none P next ctx w w1 e hnext hres]
  | some r =>
    cases harg : r.HasArg P.WebhookURLArgKey with
    | true => rw [cleanupMiddleware_on_webhook P next ctx w w1 e r hnext hres harg]
    | false =>
      cases hclose : r.closeResult with
      | none => rw [cleanupMiddleware_on_close_ok P next ctx w w1 e r hnext hres harg hclose]
      | some resourceErr =>
        rw [cleanupMiddleware_on_close_failure P next ctx w w1 e r resourceErr hnext hres
          harg hclose]

/-- C3: when the context holds, once the wrapped handler has ended, a Resource
with the webhook URL argument, cleanupMiddleware ends the way the handler
ended (the same error, nil included) and leaves the world as the handler left
it: among the calls it makes there is no `Close`. -/
theorem cleanupMiddleware_webhook_never_closes (P : Pkgs) (next : HandlerFunc)
    (ctx : Context) (w w1 : World) (o : Outcome) (r : Resource)
    (hnext : next (.custom ctx) w = (o, w1)) (hres : w1.resource = some r)
    (harg : r.HasArg P.WebhookURLArgKey = true) :
    cleanupMiddleware P next (.custom ctx) w = (o, w1) ∧
    ∀ evs : List Event,
      (cleanupMiddleware P next (.custom ctx) w).2.log = w1.log ++ evs →
        closeCalls evs = 0 := by
  have key : cleanupMiddleware P next (.custom ctx) w = (o, w1) := by
    cases o with
    | ret e => exact cleanupMiddleware_on_webhook P next ctx w w1 e r hnext hres harg
    | panic v => exact cleanupMiddleware_on_panic P next (.custom ctx) w w1 v hnext
  refine ⟨key, ?_⟩
  intro evs h
  rw [key] at h
  have hnil : evs = [] := by simpa using h
  rw [hnil]
  rfl

/-- An instance of C3: a handler returning an error, a Resource with the
webhook URL argument. -/
theorem cleanupMiddleware_webhook_never_closes_witness :
    exReturn (some exInternalErr) (.custom exCtx) (exWorldWith exResourceHook)
        = (.ret (some exInternalErr), exWorldWith exResourceHook) ∧
    (exWorldWith exResourceHook).resource = some exResourceHook ∧
    exResourceHook.HasArg exPkgs.WebhookURLArgKey = true ∧
    (cleanupMiddleware exPkgs (exReturn (some exInternalErr)) (.custom exCtx)
        (exWorldWith exResourceHook)
      = (.ret (some exInternalErr), exWorldWith exResourceHook) ∧
    ∀ evs : List Event,
      (cleanupMiddleware exPkgs (exReturn (some exInternalErr)) (.custom exCtx)
        (exWorldWith exResourceHook)).2.log = (exWorldWith exResourceHook).log ++ evs →
        closeCalls evs = 0) :=
  ⟨rfl, rfl, by decide,
    cleanupMiddleware_webhook_never_closes exPkgs (exReturn (some exInternalErr)) exCtx
      (exWorldWith exResourceHook) (exWorldWith exResourceHook) _ exResourceHook rfl rfl
      (by decide)⟩

/-- C4: when the wrapped handler returns (nil or an error) and the context then
holds a Resource without the webhook URL argument, the calls cleanupMiddleware
makes come after those of the handler, start with `Close` on that Resource and
hold exactly one `Close`; when the context holds no Resource,
cleanupMiddleware makes no call at all. -/
theorem cleanupMiddleware_closes_exactly_once (P : Pkgs) (next : HandlerFunc)
    (ctx : Context) (w w1 : World) (e : Option GoError)
    (hnext : next (.custom ctx) w = (.ret e, w1)) :
    (∀ r : Resource, w1.resource = some r → r.HasArg P.WebhookURLArgKey = false →
      ∃ evs : List Event,
        (cleanupMiddleware P next (.custom ctx) w).2.log = w1.log ++ evs ∧
        evs.head? = some (.Close r) ∧ closeCalls evs = 1) ∧
    (w1.resource = none → cleanupMiddleware P next (.custom ctx) w = (.ret e, w1)) := by
  refine ⟨?_, cleanupMiddleware_on_none P next ctx w w1 e hnext⟩
  intro r hres harg
  cases hclose : r.closeResult with
  | none =>
    rw [cleanupMiddleware_on_close_ok P next ctx w w1 e r hnext hres harg hclose]
    exact ⟨_, rfl, rfl, rfl⟩
  | some resourceErr =>
    rw [cleanupMiddleware_on_close_failure P next ctx w w1 e r resourceErr hnext hres harg
      hclose]
    exact ⟨_, rfl, rfl, rfl⟩

/-- An instance of C4: a handler returning nil, a Resource without the webhook
URL argument. -/
theorem cleanupMiddleware_closes_exactly_once_witness :
    exReturn none (.custom exCtx) (exWorldWith exResource)
        = (.ret none, exWorldWith exResource) ∧
    ((∀ r : Resource, (exWorldWith exResource).resource = some r →
      r.HasArg exPkgs.WebhookURLArgKey = false →
      ∃ evs : List Event,
        (cleanupMiddleware exPkgs (exReturn none) (.custom exCtx)
          (exWorldWith exResource)).2.log = (exWorldWith exResource).log ++ evs ∧
        evs.head? = some (.Close r) ∧ closeCalls evs = 1) ∧
    ((exWorldWith exResource).resource = none →
      cleanupMiddleware exPkgs (exReturn none) (.custom exCtx) (exWorldWith exResource)
        = (.ret none, exWorldWith exResource))) :=
  ⟨rfl,
    cleanupMiddleware_closes_exactly_once exPkgs (exReturn none) exCtx
      (exWorldWith exResource) (exWorldWith exResource) none rfl⟩

/-- C5: whenever the wrapped handler returns, cleanupMiddleware returns exactly
the error the handler returned (nil stays nil), whatever `Close` answers; when
`Close` succeeds cleanupMiddleware logs nothing, and when it fails with
`resourceErr` the only call after `Close` is one `ErrorOp` on the error
`xerror.New("xhttp.cleanupMiddleware", resourceErr)`, under the label
`xerror.Op` gives for it, which is the label `"xhttp.cleanupMiddleware"` itself
for an `xerror` whose `Op` reads the label `New` was given. -/
theorem cleanupMiddleware_keeps_handler_error (P : Pkgs) (next : HandlerFunc)
    (ctx : Context) (w w1 : World) (e : Option GoError)
    (hnext : next (.custom ctx) w = (.ret e, w1)) :
    (cleanupMiddleware P next (.custom ctx) w).1 = .ret e ∧
    ∀ r : Resource, w1.resource = some r → r.HasArg P.WebhookURLArgKey = false →
      (r.closeResult = none →
        (cleanupMiddleware P next (.custom ctx) w).2.log = w1.log ++ [.Close r]) ∧
      (∀ resourceErr : GoError, r.closeResult = some resourceErr →
        (cleanupMiddleware P next (.custom ctx) w).2.log =
          w1.log ++ [.Close r,
            .ErrorOp (P.Op (P.New "xhttp.cleanupMiddleware" resourceErr))
              (P.New "xhttp.cleanupMiddleware" resourceErr)] ∧
        (P.OpOfNew →
          (cleanupMiddleware P next (.custom ctx) w).2.log =
            w1.log ++ [.Close r,
              .ErrorOp "xhttp.cleanupMiddleware"
                (P.New "xhttp.cleanupMiddleware" resourceErr)] ∧
          errorOpCalls [.Close r,
              .ErrorOp "xhttp.cleanupMiddleware"
                (P.New "xhttp.cleanupMiddleware" resourceErr)] = 1)) := by
  refine ⟨cleanupMiddleware_returns P next ctx w w1 e hnext, ?_⟩
  intro r hres harg
  constructor
  · intro hclose
    rw [cleanupMiddleware_on_close_ok P next ctx w w1 e r hnext hres harg hclose]
  · intro resourceErr hclose
    rw [cleanupMiddleware_on_close_failure P next ctx w w1 e r resourceErr hnext hres harg
      hclose]
    refine ⟨rfl, ?_⟩
    intro hop
    rw [hop "xhttp.cleanupMiddleware" resourceErr]
    exact ⟨rfl, rfl⟩

/-- An instance of C5: a handler returning an error, a Resource whose `Close`
fails, an `xerror` whose `Op` reads the label `New` was given; the failure is
logged once, under the label `"xhttp.cleanupMiddleware"`. -/
theorem cleanupMiddleware_keeps_handler_error_witness :
    exReturn (some exInternalErr) (.custom exCtx) (exWorldWith exResourceBad)
        = (.ret (some exInternalErr), exWorldWith exResourceBad) ∧
    (exWorldWith exResourceBad).resource = some exResourceBad ∧
    exResourceBad.HasArg exPkgs.WebhookURLArgKey = false ∧
    exResourceBad.closeResult = some exCloseErr ∧
    exPkgs.OpOfNew ∧
    (cleanupMiddleware exPkgs (exReturn (some exInternalErr)) (.custom exCtx)
        (exWorldWith exResourceBad)).1 = .ret (some exInternalErr) ∧
    (cleanupMiddleware exPkgs (exReturn (some exInternalErr)) (.custom exCtx)
        (exWorldWith exResourceBad)).2.log =
      (exWorldWith exResourceBad).log ++ [.Close exResourceBad,
        .ErrorOp "xhttp.cleanupMiddleware"
          (exPkgs.New "xhttp.cleanupMiddleware" exCloseErr)] ∧
    errorOpCalls [.Close exResourceBad,
        .ErrorOp "xhttp.cleanupMiddleware"
          (exPkgs.New "xhttp.cleanupMiddleware" exCloseErr)] = 1 :=
  ⟨rfl, rfl, by decide, rfl, exPkgs_opOfNew,
    (cleanupMiddleware_keeps_handler_error exPkgs (exReturn (some exInternalErr)) exCtx
      (exWorldWith exResourceBad) (exWorldWith exResourceBad) _ rfl).1,
    ((((cleanupMiddleware_keeps_handler_error exPkgs (exReturn (some exInternalErr)) exCtx
      (exWorldWith exResourceBad) (exWorldWith exResourceBad) _ rfl).2
        exResourceBad rfl (by decide)).2 exCloseErr rfl).2 exPkgs_opOfNew).1,
    ((((cleanupMiddleware_keeps_handler_error exPkgs (exReturn (some exInternalErr)) exCtx
      (exWorldWith exResourceBad) (exWorldWith exResourceBad) _ rfl).2
        exResourceBad rfl (by decide)).2 exCloseErr rfl).2 exPkgs_opOfNew).2⟩

/-- C9, as the claim states it, fails: with a Resource without the webhook URL
argument and a handler that panics, cleanupMiddleware panics too and makes no
`Close` call. -/
theorem cleanupMiddleware_panic_skips_close :
    exPanic (.custom exCtx) (exWorldWith exResource)
        = (.panic "boom", exWorldWith exResource) ∧
    (exWorldWith exResource).resource = some exResource ∧
    exResource.HasArg exPkgs.WebhookURLArgKey = false ∧
    cleanupMiddleware exPkgs exPanic (.custom exCtx) (exWorldWith exResource)
      = (.panic "boom", exWorldWith exResource) ∧
    Event.Close exResource ∉
      (cleanupMiddleware exPkgs exPanic (.custom exCtx) (exWorldWith exResource)).2.log := by
  refine ⟨rfl, rfl, by decide, rfl, ?_⟩
  decide

/-- C9, amended: with a Resource without the webhook URL argument, whenever
the wrapped handler returns (nil or an error) cleanupMiddleware returns the
same error and its calls, made after those of the handler, start with `Close`
on that Resource; when the handler panics, cleanupMiddleware panics with the
same value and makes no call. -/
theorem cleanupMiddleware_releases_on_return (P : Pkgs) (next : HandlerFunc)
    (ctx : Context) (w w1 : World) (o : Outcome) (r : Resource)
    (hnext : next (.custom ctx) w = (o, w1)) (hres : w1.resource = some r)
    (harg : r.HasArg P.WebhookURLArgKey = false) :
    match o with
    | .ret e =>
      (cleanupMiddleware P next (.custom ctx) w).1 = .ret e ∧
      ∃ evs : List Event,
        (cleanupMiddleware P next (.custom ctx) w).2.log = w1.log ++ .Close r :: evs ∧
        closeCalls evs = 0
    | .panic v => cleanupMiddleware P next (.custom ctx) w = (.panic v, w1) := by
  cases o with
  | panic v => exact cleanupMiddleware_on_panic P next (.custom ctx) w w1 v hnext
  | ret e =>
    refine ⟨cleanupMiddleware_returns P next ctx w w1 e hnext, ?_⟩
    cases hclose : r.closeResult with
    | none =>
      rw [cleanupMiddleware_on_close_ok P next ctx w w1 e r hnext hres harg hclose]
      exact ⟨[], rfl, rfl⟩
    | some resourceErr =>
      rw [cleanupMiddleware_on_close_failure P next ctx w w1 e r resourceErr hnext hres harg
        hclose]
      exact ⟨_, rfl, rfl⟩

/-- An instance of C9 amended: a handler returning an error. -/
theorem cleanupMiddleware_releases_on_return_witness :
    exReturn (some exInternalErr) (.custom exCtx) (exWorldWith exResource)
        = (.ret (some exInternalErr), exWorldWith exResource) ∧
    (exWorldWith exResource).resource = some exResource ∧
    exResource.HasArg exPkgs.WebhookURLArgKey = false ∧
    ((cleanupMiddleware exPkgs (exReturn (some exInternalErr)) (.custom exCtx)
        (exWorldWith exResource)).1 = .ret (some exInternalErr) ∧
      ∃ evs : List Event,
        (cleanupMiddleware exPkgs (exReturn (some exInternalErr)) (.custom exCtx)
          (exWorldWith exResource)).2.log
          = (exWorldWith exResource).log ++ .Close exResource :: evs ∧
        closeCalls evs = 0) :=
  ⟨rfl, rfl, by decide,
    cleanupMiddleware_releases_on_return exPkgs (exReturn (some exInternalErr)) exCtx
      (exWorldWith exResource) (exWorldWith exResource) _ exResource rfl rfl (by decide)⟩

/-! ## contextMiddleware -/

theorem contextMiddleware_on_ping (P : Pkgs) (config : Config) (processes : List Process)
    (next : HandlerFunc) (c : EchoContext) (w : World) (hpath : c.Path = P.pingEndpoint) :
    contextMiddleware P config processes next c w =
      next (.custom (contextNew c (xlogNew config.LogLevel w.trace) config processes)) w := by
  simp [contextMiddleware, xrandGet, contextNew, hpath]

theorem contextMiddleware_on_failure (P : Pkgs) (config : Config)
    (processes : List Process) (next : HandlerFunc) (c : EchoContext) (w : World)
    (err : GoError) (hpath : c.Path ≠ P.pingEndpoint) (hacq : w.acquire = .inl err) :
    contextMiddleware P config processes next c w =
      (.ret (P.logResult (some err) false),
       { w with log := w.log ++ [.WithResource w.trace, .Error err,
          .LogRequestResult (some err) false] }) := by
  simp [contextMiddleware, xrandGet, contextNew, hpath, WithResource, hacq, ctxError,
    LogRequestResult, World.record]

theorem contextMiddleware_on_success (P : Pkgs) (config : Config)
    (processes : List Process) (next : HandlerFunc) (c : EchoContext) (w : World)
    (r : Resource) (hpath : c.Path ≠ P.pingEndpoint) (hacq : w.acquire = .inr r) :
    contextMiddleware P config processes next c w =
      next (.custom (contextNew c (xlogNew config.LogLevel w.trace) config processes))
        { w with log := w.log ++ [.WithResource w.trace], resource := some r } := by
  simp [contextMiddleware, xrandGet, contextNew, hpath, WithResource, hacq, World.record]

/-- C6: on the health-check path contextMiddleware makes no call of its own
(no `WithResource`): it is the wrapped handler, run once on the new context in
the world as it stood, and the result of the handler is the result.  Off that
path its own calls hold exactly one `WithResource`: when the acquisition
succeeds that call is its only one and the handler runs after it, and when the
acquisition fails its calls are all the calls of the request. -/
theorem contextMiddleware_withResource_calls (P : Pkgs) (config : Config)
    (processes : List Process) (next : HandlerFunc) (c : EchoContext) (w : World) :
    (c.Path = P.pingEndpoint →
      contextMiddleware P config processes next c w =
        next (.custom (contextNew c (xlogNew config.LogLevel w.trace) config processes)) w) ∧
    (c.Path ≠ P.pingEndpoint →
      ∃ evs : List Event, withResourceCalls evs = 1 ∧
        ((∃ r : Resource, w.acquire = .inr r ∧
            contextMiddleware P config processes next c w =
              next (.custom (contextNew c (xlogNew config.LogLevel w.trace) config processes))
                { w with log := w.log ++ evs, resource := some r }) ∨
         (∃ err : GoError, w.acquire = .inl err ∧
            (contextMiddleware P config processes next c w).2.log = w.log ++ evs))) := by
  refine ⟨contextMiddleware_on_ping P config processes next c w, ?_⟩
  intro hpath
  cases hacq : w.acquire with
  | inr r =>
    refine ⟨[.WithResource w.trace], rfl, Or.inl ⟨r, rfl, ?_⟩⟩
    have h := contextMiddleware_on_success P config processes next c w r hpath hacq
    rw [hacq] at h
    exact h
  | inl err =>
    refine ⟨[.WithResource w.trace, .Error err, .LogRequestResult (some err) false], rfl,
      Or.inr ⟨err, rfl, ?_⟩⟩
    rw [contextMiddleware_on_failure P config processes next c w err hpath hacq]

/-- An instance of C6: the health-check path, and another path. -/
theorem contextMiddleware_withResource_calls_witness :
    contextMiddleware exPkgs exConfig [] (exReturn (some exInternalErr)) (.plain "/ping")
        exWorldFail
      = (.ret (some exInternalErr), exWorldFail) ∧
    ∃ evs : List Event, withResourceCalls evs = 1 ∧
      ((∃ r : Resource, exWorldFail.acquire = .inr r ∧
          contextMiddleware exPkgs exConfig [] (exReturn none) (.plain "/convert/html")
              exWorldFail =
            exReturn none
              (.custom (contextNew (.plain "/convert/html")
                (xlogNew exConfig.LogLevel exWorldFail.trace) exConfig []))
              { exWorldFail with log := exWorldFail.log ++ evs, resource := some r }) ∨
       (∃ err : GoError, exWorldFail.acquire = .inl err ∧
          (contextMiddleware exPkgs exConfig [] (exReturn none) (.plain "/convert/html")
            exWorldFail).2.log = exWorldFail.log ++ evs)) :=
  ⟨(contextMiddleware_withResource_calls exPkgs exConfig [] (exReturn (some exInternalErr))
      (.plain "/ping") exWorldFail).1 rfl,
    (contextMiddleware_withResource_calls exPkgs exConfig [] (exReturn none)
      (.plain "/convert/html") exWorldFail).2 (by decide)⟩

/-- C7: off the health-check path, when `WithResource` fails with `err`,
contextMiddleware calls, in this order, `WithResource`, `ctx.Error(err)` and
`LogRequestResult(err, false)`, returns what that last call returns, and the
wrapped handler plays no part: the result is the same for every handler. -/
theorem contextMiddleware_acquisition_failure (P : Pkgs) (config : Config)
    (processes : List Process) (next : HandlerFunc) (c : EchoContext) (w : World)
    (err : GoError) (hpath : c.Path ≠ P.pingEndpoint) (hacq : w.acquire = .inl err) :
    contextMiddleware P config processes next c w =
      (.ret (P.logResult (some err) false),
       { w with log := w.log ++ [.WithResource w.trace, .Error err,
          .LogRequestResult (some err) false] }) ∧
    (LogRequestResult P (some err) false
        { w with log := w.log ++ [.WithResource w.trace, .Error err] }).1
      = .ret (P.logResult (some err) false) ∧
    ∀ other : HandlerFunc,
      contextMiddleware P config processes other c w =
        contextMiddleware P config processes next c w := by
  refine ⟨contextMiddleware_on_failure P config processes next c w err hpath hacq, rfl, ?_⟩
  intro other
  rw [contextMiddleware_on_failure P config processes next c w err hpath hacq,
    contextMiddleware_on_failure P config processes other c w err hpath hacq]

/-- An instance of C7: the acquisition fails, the handler would panic. -/
theorem contextMiddleware_acquisition_failure_witness :
    (EchoContext.plain "/convert/html").Path ≠ exPkgs.pingEndpoint ∧
    exWorldFail.acquire = .inl exInvalidErr ∧
    (contextMiddleware exPkgs exConfig [] exPanic (.plain "/convert/html") exWorldFail =
      (.ret (exPkgs.logResult (some exInvalidErr) false),
       { exWorldFail with log := exWorldFail.log ++ [.WithResource exWorldFail.trace,
          .Error exInvalidErr, .LogRequestResult (some exInvalidErr) false] }) ∧
    (LogRequestResult exPkgs (some exInvalidErr) false
        { exWorldFail with log := exWorldFail.log ++
          [.WithResource exWorldFail.trace, .Error exInvalidErr] }).1
      = .ret (exPkgs.logResult (some exInvalidErr) false) ∧
    ∀ other : HandlerFunc,
      contextMiddleware exPkgs exConfig [] other (.plain "/convert/html") exWorldFail =
        contextMiddleware exPkgs exConfig [] exPanic (.plain "/convert/html") exWorldFail) :=
  ⟨by decide, rfl,
    contextMiddleware_acquisition_failure exPkgs exConfig [] exPanic
      (.plain "/convert/html") exWorldFail exInvalidErr (by decide) rfl⟩

/-- C8, on the code: for an acquisition failure `err` of the invalid code,
contextMiddleware passes `err` itself to `ctx.Error`, while errorMiddleware,
given the same `err` by a handler, passes the HTTP error of status 400; the
error contextMiddleware records is not an HTTP error at all. -/
theorem contextMiddleware_records_unclassified :
    exPkgs.Code exInvalidErr = exPkgs.InvalidCode ∧
    (contextMiddleware exPkgs exConfig [] (exReturn none) (.plain "/convert/html")
        exWorldFail).2.log
      = [.WithResource "t1", .Error exInvalidErr, .LogRequestResult (some exInvalidErr) false] ∧
    (errorMiddleware exPkgs (exReturn (some exInvalidErr)) (.custom exCtx) exWorldFail).2.log
      = [.ErrorOp "context.WithResource" exInvalidErr,
         .Error (.echoHTTP { Code := 400, Message := "invalid form data" })] ∧
    exInvalidErr.asHTTPError = none := by
  refine ⟨rfl, ?_, ?_, rfl⟩ <;> decide

end Xhttp
